import Mathlib

/-!
Verification of the PyDIP Python glue (DIPlib/diplib repository) against its
natural-language specification.  Pure Python functions from
`src/pydip/PyDIP_py.py`, `src/pydip/src/PyDIP_py.py` and
`src/pydip/src/dipview.py` are embedded shallowly as Lean functions; calls
into the native binary module (`PyDIP_bin`: the Image container, the
display mapper) and into external libraries (numpy, matplotlib, the file
codecs) are represented either by oracle parameters or, where a claim is
about the binary itself, by definitions modelled from the specification.
-/

set_option maxRecDepth 8000

namespace DIPlib

/-- Base palette of 16 colors hard-coded as the NumPy array `cm` inside
`_label_colormap` (src/pydip/PyDIP_py.py, lines 45-62).  Each RGB component
is the source float literal scaled by 10000, so values stay exact naturals
(the source stores 1.0000, 0.3333, 0.6667, 0.5000 verbatim). -/
def labelBaseColors : List (Nat × Nat × Nat) :=
  [(10000, 0, 0), (0, 10000, 0), (0, 0, 10000), (10000, 10000, 0),
   (0, 10000, 10000), (10000, 0, 10000), (10000, 3333, 0), (6667, 10000, 0),
   (0, 6667, 10000), (3333, 0, 10000), (10000, 0, 6667), (10000, 6667, 0),
   (0, 10000, 5000), (0, 3333, 10000), (6667, 0, 10000), (10000, 0, 3333)]

/-- The 256-entry label color map, as `_label_colormap` builds it:
`index = list(i % n for i in range(0, 255))` with `n = 16`, then
`cm = np.concatenate((np.array([[0, 0, 0]]), cm[index]))`: a single black
entry followed by 255 cyclically repeated palette entries. -/
def labelColormap : List (Nat × Nat × Nat) :=
  (0, 0, 0) :: (List.range 255).map (fun i => labelBaseColors.getD (i % 16) (0, 0, 0))

theorem labelColormap_length : labelColormap.length = 256 := by
  simp [labelColormap]

theorem labelColormap_entry (k : Nat) (h1 : 1 ≤ k) (h2 : k ≤ 255) :
    labelColormap.getD k (0, 0, 0) = labelBaseColors.getD ((k - 1) % 16) (0, 0, 0) := by
  obtain ⟨i, rfl⟩ : ∃ i, k = i + 1 := ⟨k - 1, by omega⟩
  have hi : i < 255 := by omega
  simp only [labelColormap, List.getD_cons_succ, Nat.add_sub_cancel]
  rw [List.getD_eq_getElem?_getD, List.getElem?_map, List.getElem?_range hi]
  rfl

theorem labelBaseColors_inj :
    ∀ a < 16, ∀ b < 16, a ≠ b →
      labelBaseColors.getD a (0, 0, 0) ≠ labelBaseColors.getD b (0, 0, 0) := by
  decide

/-- C6: the `label` color map is a 256-entry table whose entry 0 is black and
whose entry `k` (for `1 ≤ k ≤ 255`) is entry `(k - 1) % 16` of the fixed
16-color base palette; hence any 16 consecutive nonzero labels receive
pairwise distinct colors. -/
theorem C6_label_colormap :
    labelColormap.length = 256 ∧
    labelColormap.getD 0 (0, 0, 0) = (0, 0, 0) ∧
    (∀ k : Nat, 1 ≤ k → k ≤ 255 →
      labelColormap.getD k (0, 0, 0) = labelBaseColors.getD ((k - 1) % 16) (0, 0, 0)) ∧
    (∀ j k : Nat, 1 ≤ j → j < k → k ≤ 255 → k - j < 16 →
      labelColormap.getD k (0, 0, 0) ≠ labelColormap.getD j (0, 0, 0)) := by
  refine ⟨labelColormap_length, rfl, labelColormap_entry, ?_⟩
  intro j k hj hjk hk hlt
  rw [labelColormap_entry j hj (by omega), labelColormap_entry k (by omega) hk]
  refine labelBaseColors_inj _ (Nat.mod_lt _ (by omega)) _ (Nat.mod_lt _ (by omega)) ?_
  intro hmod
  have hmodEq : Nat.ModEq 16 (j - 1) (k - 1) := hmod.symm
  have hdvd : 16 ∣ (k - 1) - (j - 1) := (Nat.modEq_iff_dvd' (by omega)).mp hmodEq
  have : 16 ≤ (k - 1) - (j - 1) := Nat.le_of_dvd (by omega) hdvd
  omega

/-- Witness for C6: entry 17 wraps around to base color 0, and the adjacent
nonzero labels 1 and 2 receive different colors. -/
theorem C6_label_colormap_witness :
    labelColormap.getD 17 (0, 0, 0) = labelBaseColors.getD 0 (0, 0, 0) ∧
    labelColormap.getD 2 (0, 0, 0) ≠ labelColormap.getD 1 (0, 0, 0) :=
  ⟨by
    have h := C6_label_colormap.2.2.1 17 (by decide) (by decide)
    simpa using h,
   C6_label_colormap.2.2.2 1 2 (by decide) (by decide) (by decide) (by decide)⟩

/-- Index of the last occurrence of character `c` in `s`, or `-1` when `c`
does not occur: the behavior of Python `str.rfind` as used by
`posixpath.splitext`. -/
def lastIndexOf (c : Char) (s : List Char) : Int :=
  (List.range s.length).foldl
    (fun acc (i : Nat) => if s[i]? = some c then (i : Int) else acc) (-1)

/-- The extension part returned by `os.path.splitext` (posix variant): the
suffix starting at the last dot, provided that dot comes after the last path
separator and at least one non-dot character stands between them (leading
dots of a hidden file do not start an extension). -/
def splitextExt (p : List Char) : List Char :=
  let sepIndex := lastIndexOf '/' p
  let dotIndex := lastIndexOf '.' p
  if sepIndex < dotIndex ∧
      (List.range p.length).any
        (fun i => decide (sepIndex < (i : Int)) && decide ((i : Int) < dotIndex) &&
          (p[i]? != some '.')) then
    p.drop dotIndex.toNat
  else []

/-- Lower-cased file extension, as computed by `ImageRead` and `ImageWrite`
(src/pydip/PyDIP_py.py): `base, ext = os.path.splitext(filename)` followed by
`ext = ext.lower()`. -/
def fileExt (filename : String) : String :=
  String.mk ((splitextExt filename.data).map Char.toLower)

/-- Oracles for the external file readers that `ImageRead` dispatches to;
they live in the binary module `PyDIP_bin` / `PyDIP.javaio` and are outside
the scope of this embedding.  `hasDIPjavaio` is the module-level flag tested
before using Bio-Formats.  `α` is the type of decoded images. -/
structure Readers (α : Type) where
  imageReadICS : String → Except String α
  imageReadTIFF : String → Except String α
  imageReadJPEG : String → Except String α
  imageReadJavaIO : String → Except String α
  hasDIPjavaio : Bool

/-- Embedding of `ImageRead(filename, format)` from src/pydip/PyDIP_py.py:
an empty format is replaced according to the lower-cased file extension
(unrecognized extensions fall back to the Bio-Formats reader), then the
format dispatches to the matching reader; an unknown nonempty format raises
`ValueError` with message `Unknown format`. -/
def ImageRead {α : Type} (R : Readers α) (filename : String) (format : String) :
    Except String α :=
  let format :=
    if format = "" then
      let ext := fileExt filename
      if ext = ".ics" ∨ ext = ".ids" then "ics"
      else if ext = ".tif" ∨ ext = ".tiff" then "tiff"
      else if ext = ".jpg" ∨ ext = ".jpeg" then "jpeg"
      else "bioformats"
    else format
  if format = "ics" then R.imageReadICS filename
  else if format = "tiff" then R.imageReadTIFF filename
  else if format = "jpeg" then R.imageReadJPEG filename
  else if format = "bioformats" then
    if ¬R.hasDIPjavaio then Except.error "Bio-Formats not available"
    else R.imageReadJavaIO filename
  else Except.error "Unknown format"

/-- Oracles for the external file writers that `ImageWrite` dispatches to.
The ICS writer receives the option strings accumulated by `ImageWrite`
(the source uses a `set`; a list stands in for it here). -/
structure Writers (α : Type) where
  imageWriteICS : α → String → List String → Except String Unit
  imageWriteTIFF : α → String → String → Except String Unit
  imageWriteJPEG : α → String → Except String Unit

/-- Embedding of `ImageWrite(image, filename, format, compression)` from
src/pydip/PyDIP_py.py: an empty format is replaced according to the
lower-cased file extension, but an unrecognized extension raises
`ValueError` with message `File extension not recognized`; the `icsv2` and
`icsv1` formats collapse to `ics` (the latter adding the `v1` option); the
ICS branch validates the compression flag; an unknown nonempty format
raises `ValueError` with message `Unknown format`. -/
def ImageWrite {α : Type} (W : Writers α) (image : α) (filename : String)
    (format : String) (compression : String) : Except String Unit :=
  match
    (if format = "" then
      let ext := fileExt filename
      if ext = ".ics" ∨ ext = ".ids" then Except.ok "ics"
      else if ext = ".tif" ∨ ext = ".tiff" then Except.ok "tiff"
      else if ext = ".jpg" ∨ ext = ".jpeg" then Except.ok "jpeg"
      else Except.error "File extension not recognized"
    else Except.ok format) with
  | Except.error e => Except.error e
  | Except.ok format =>
    let options : List String := []
    let (format, options) :=
      if format = "icsv2" then ("ics", options)
      else if format = "icsv1" then ("ics", options ++ ["v1"])
      else (format, options)
    if format = "ics" then
      if compression = "" then W.imageWriteICS image filename (options ++ ["gzip"])
      else if compression = "none" then
        W.imageWriteICS image filename (options ++ ["uncompressed"])
      else Except.error "Compression flag not valid for ICS file"
    else if format = "tiff" then W.imageWriteTIFF image filename compression
    else if format = "jpeg" then W.imageWriteJPEG image filename
    else Except.error "Unknown format"

/-- Decode of one file inside the loop of `dipview.main`
(src/pydip/src/dipview.py): with the `-b` flag the file is read with format
`bioformats`, otherwise with the default empty format. -/
def dipviewDecode {α : Type} (R : Readers α) (bioformats : Bool) (f : String) :
    Except String α :=
  if bioformats then ImageRead R f "bioformats" else ImageRead R f ""

/-- The file loop of `dipview.main`: files are decoded in order and a decode
failure propagates as an uncaught exception.  The viewer calls
(`dip.viewer.Show`, `Link`, `Spin`, `CloseAll`) are external collaborators
that do not fail in this model. -/
def dipviewRun {α : Type} (R : Readers α) (bioformats : Bool) :
    List String → Except String Unit
  | [] => Except.ok ()
  | f :: rest =>
    match dipviewDecode R bioformats f with
    | Except.error e => Except.error e
    | Except.ok _ => dipviewRun R bioformats rest

/-- Exit code of the `dipview` command-line tool: `main` returns `None`
(so `sys.exit(main())` exits with code 0) when the loop completes, and an
uncaught exception makes the Python interpreter exit with code 1. -/
def dipviewMain {α : Type} (R : Readers α) (bioformats : Bool)
    (files : List String) : Nat :=
  match dipviewRun R bioformats files with
  | Except.ok _ => 0
  | Except.error _ => 1

/-- The argparse configuration of `dipview.main`: one or more positional
file arguments and an optional boolean flag `-b` / `--bioformats`; argparse
exits with a usage error when no positional argument is present.  argparse
itself is an external library; this models only the surface `dipview`
configures. -/
def parseDipviewArgs (argv : List String) : Except String (Bool × List String) :=
  let bioformats := argv.any (fun a => a == "-b" || a == "--bioformats")
  let files := argv.filter (fun a => !(a == "-b" || a == "--bioformats"))
  if files.isEmpty then Except.error "the following arguments are required: file"
  else Except.ok (bioformats, files)

theorem dipviewRun_ok_iff {α : Type} (R : Readers α) (b : Bool) (files : List String) :
    dipviewRun R b files = Except.ok () ↔
      ∀ f ∈ files, ∃ img, dipviewDecode R b f = Except.ok img := by
  induction files with
  | nil => simp [dipviewRun]
  | cons f rest ih =>
    simp only [dipviewRun]
    cases h : dipviewDecode R b f with
    | error e =>
      simp only [List.mem_cons]
      constructor
      · intro hcontra; cases hcontra
      · intro hall
        obtain ⟨img, himg⟩ := hall f (Or.inl rfl)
        rw [h] at himg; cases himg
    | ok img =>
      rw [ih]
      constructor
      · intro hall g hg
        rcases List.mem_cons.mp hg with rfl | hg
        · exact ⟨img, h⟩
        · exact hall g hg
      · intro hall g hg
        exact hall g (List.mem_cons.mpr (Or.inr hg))

/-- C8: the viewer CLI accepts one or more file paths plus an optional
`-b`/`--bioformats` flag; with the flag every file is decoded through
`ImageRead` with format `bioformats`; the process exits with code 0 exactly
when every file decodes successfully and with the nonzero code 1 otherwise. -/
theorem C8_dipview_cli {α : Type} (R : Readers α) (bioformats : Bool)
    (files : List String) :
    (dipviewMain R bioformats files = 0 ↔
      ∀ f ∈ files, ∃ img, dipviewDecode R bioformats f = Except.ok img) ∧
    (dipviewMain R bioformats files = 0 ∨ dipviewMain R bioformats files = 1) ∧
    (∀ f, dipviewDecode R true f = ImageRead R f "bioformats") ∧
    (∀ argv : List String,
      (∃ x, parseDipviewArgs argv = Except.ok x) ↔
        ∃ a ∈ argv, a ≠ "-b" ∧ a ≠ "--bioformats") := by
  refine ⟨?_, ?_, fun f => rfl, ?_⟩
  · rw [← dipviewRun_ok_iff]
    unfold dipviewMain
    cases h : dipviewRun R bioformats files with
    | ok u => cases u; simp [h]
    | error e => simp [h]
  · unfold dipviewMain
    cases dipviewRun R bioformats files <;> simp
  · intro argv
    unfold parseDipviewArgs
    cases hfil : argv.filter (fun a => !(a == "-b" || a == "--bioformats")) with
    | nil =>
      have hall : ∀ a ∈ argv, a = "-b" ∨ a = "--bioformats" := by
        have h := List.filter_eq_nil_iff.mp hfil
        intro a ha
        have := h a ha
        have hx : (a == "-b" || a == "--bioformats") = true := by
          cases hb : (a == "-b" || a == "--bioformats") with
          | true => rfl
          | false => exact absurd (by rw [hb]; rfl) this
        simp only [Bool.or_eq_true, beq_iff_eq] at hx
        exact hx
      simp only [List.isEmpty_nil, if_true]
      constructor
      · rintro ⟨x, hx⟩; cases hx
      · rintro ⟨a, ha, h1, h2⟩
        rcases hall a ha with h | h
        · exact absurd h h1
        · exact absurd h h2
    | cons a as =>
      have hmem : a ∈ argv.filter (fun x => !(x == "-b" || x == "--bioformats")) := by
        rw [hfil]; exact List.mem_cons_self ..
      have hm := List.mem_filter.mp hmem
      simp only [List.isEmpty_cons, Bool.false_eq_true, if_false]
      constructor
      · intro _
        refine ⟨a, hm.1, ?_⟩
        have := hm.2
        simpa using this
      · intro _; exact ⟨_, rfl⟩

/-- A reader-oracle bundle over `Nat` images where every external reader
succeeds, used to evaluate the CLI and read/write dispatch theorems at
concrete inputs. -/
def sampleReaders : Readers Nat :=
  ⟨fun _ => Except.ok 1, fun _ => Except.ok 2, fun _ => Except.ok 3,
   fun _ => Except.ok 4, true⟩

/-- Witness for C8: with the Bio-Formats flag set and both decodes
succeeding, the CLI exits with code 0 on two concrete files. -/
theorem C8_dipview_cli_witness :
    dipviewMain sampleReaders true ["a.tif", "b.png"] = 0 :=
  (C8_dipview_cli sampleReaders true ["a.tif", "b.png"]).1.mpr
    (by
      intro f hf
      rcases List.mem_cons.mp hf with rfl | hf
      · exact ⟨4, rfl⟩
      · rcases List.mem_cons.mp hf with rfl | hf
        · exact ⟨4, rfl⟩
        · cases hf)

/-- C10: with an empty format string and a filename whose lower-cased
extension is not one of .ics/.ids/.tif/.tiff/.jpg/.jpeg, `ImageRead` does
not reject the extension: it falls back to the Bio-Formats reader, so the
only error raised before attempting the read is `ValueError` with message
`Bio-Formats not available` when the Java bridge is absent; `ImageWrite`,
in contrast, raises `ValueError` with message
`File extension not recognized`. -/
theorem C10_extension_fallback {α : Type} (R : Readers α) (W : Writers α)
    (image : α) (filename compression : String)
    (h : fileExt filename ∉
      ([".ics", ".ids", ".tif", ".tiff", ".jpg", ".jpeg"] : List String)) :
    ImageRead R filename "" =
      (if R.hasDIPjavaio then R.imageReadJavaIO filename
       else Except.error "Bio-Formats not available") ∧
    ImageWrite W image filename "" compression =
      Except.error "File extension not recognized" := by
  simp only [List.mem_cons, List.not_mem_nil, or_false] at h
  push_neg at h
  obtain ⟨h1, h2, h3, h4, h5, h6⟩ := h
  constructor
  · unfold ImageRead
    simp only [h1, h2, h3, h4, h5, h6]
    cases R.hasDIPjavaio <;> simp
  · unfold ImageWrite
    simp [h1, h2, h3, h4, h5, h6]

/-- A writer-oracle bundle over `Nat` images where every external writer
succeeds, used to evaluate write dispatch theorems at concrete inputs. -/
def sampleWriters : Writers Nat :=
  ⟨fun _ _ _ => Except.ok (), fun _ _ _ => Except.ok (), fun _ _ => Except.ok ()⟩

/-- Witness for C10: reading `photo.png` with the Java bridge present
reaches the Bio-Formats reader, and writing `photo.png` is rejected. -/
theorem C10_extension_fallback_witness :
    ImageRead sampleReaders "photo.png" "" = Except.ok 4 ∧
    ImageWrite sampleWriters 0 "photo.png" "" "" =
      Except.error "File extension not recognized" := by
  have h := C10_extension_fallback sampleReaders sampleWriters 0 "photo.png" ""
    (by decide)
  exact ⟨h.1.trans (by rfl), h.2⟩

/-- Image as seen by `Show` after `data = np.asarray(img)`: the array shape,
the flattened pixel values (as real/imaginary pairs; for real arrays the
imaginary parts are unused) and the `np.iscomplexobj` flag. -/
structure NpImage where
  shape : List Nat
  cvals : List (ℚ × ℚ)
  isComplex : Bool

/-- Total element count `data.size` of a NumPy array: the product of the
shape. -/
def NpImage.size (img : NpImage) : Nat := img.shape.prod

/-- A warning issued through `warnings.warn`, with its category class name
and message. -/
structure PyWarning where
  category : String
  message : String
deriving DecidableEq

/-- Data handed to `axes.plot` in the 1-D branch of `Show`: real values
after complex reduction, or still-complex values when `np.iscomplexobj` was
true but no `complexMode` branch matched. -/
inductive PlotData where
  | realVals (v : List ℚ)
  | complexVals (v : List (ℚ × ℚ))
deriving DecidableEq

/-- Observable result of one `Show` call: an early return without display
(matplotlib missing), the warn-and-return for tiny images, a 1-D line plot,
a 2-D `imshow` display (with the resolved colormap name and whether it is a
DIPlib colormap obtained through `ApplyColorMap`), or a raised exception. -/
inductive ShowOutcome where
  | noDisplay
  | nothingToDisplay
  | plotted1D (data : PlotData)
  | displayed (raster : List ℚ) (colormap : String) (dipColormap : Bool)
  | raised (message : String)
deriving DecidableEq

/-- The `range` argument of `Show`: the default empty tuple, an explicit
(low, high) pair, or a named policy string. -/
inductive RangeArg where
  | empty
  | pair (lo hi : ℚ)
  | named (s : String)
deriving DecidableEq

/-- Python string comparison `range == s` on the `range` argument: only a
string value compares equal to a string. -/
def RangeArg.isNamed (r : RangeArg) (s : String) : Bool :=
  match r with
  | .named t => t == s
  | _ => false

/-- The complex-to-real reduction of the 1-D branch of `Show` (lines
134-142 of src/pydip/src/PyDIP_py.py), applied when `np.iscomplexobj(data)`
holds.  `cAbs` and `cAngle` are oracles for `np.abs` and `np.angle`.  Note
the dispatch has no `else` branch: an unrecognized `complexMode` leaves the
data complex. -/
def applyComplexMode1D (complexMode : String) (cAbs cAngle : ℚ × ℚ → ℚ)
    (v : List (ℚ × ℚ)) : PlotData :=
  if complexMode = "abs" ∨ complexMode = "magnitude" then .realVals (v.map cAbs)
  else if complexMode = "phase" then .realVals (v.map cAngle)
  else if complexMode = "real" then .realVals (v.map Prod.fst)
  else if complexMode = "imag" then .realVals (v.map Prod.snd)
  else .complexVals v

/-- The `colormap_aliases` dictionary of `Show`. -/
def colormapAliases (c : String) : Option String :=
  if c = "divergent" then some "diverging"
  else if c = "periodic" then some "cyclic"
  else if c = "gray" then some "grey"
  else if c = "labels" then some "label"
  else if c = "sequential" then some "linear"
  else none

/-- Colormap resolution of the 2-D branch of `Show`: an empty name is
derived from the `range` policy, otherwise aliases are applied. -/
def resolveColormap (rangeArg : RangeArg) (colormap : String) : String :=
  if colormap = "" then
    if rangeArg.isNamed "base" || rangeArg.isNamed "based" then "diverging"
    else if rangeArg.isNamed "modulo" || rangeArg.isNamed "labels" then "label"
    else if rangeArg.isNamed "angle" || rangeArg.isNamed "orientation" then "cyclic"
    else "grey"
  else
    match colormapAliases colormap with
    | some c => c
    | none => colormap

/-- The set of DIPlib colormap names that `Show` feeds through
`ApplyColorMap` instead of matplotlib. -/
def dipColormaps : List String :=
  ["grey", "saturation", "linear", "diverging", "cyclic", "label"]

/-- The RuntimeWarning text issued when matplotlib is missing (whitespace
normalized from the triple-quoted source string). -/
def matplotlibMissingMessage : String :=
  "PyDIP requires matplotlib for its display functionality. Matplotlib was not found on your system. Image display (`diplib.Show()` and `diplib.Image.Show()`) will not do anything. You can install matplotlib by typing on your Linux/MacOS command prompt: pip3 install matplotlib or under Windows: python3 -m pip install matplotlib Alternatively, use `diplib.viewer.ShowModal()`, or `diplib.viewer.Show()`, `diplib.Image.ShowSlice()` and `diplib.viewer.Spin()`."

/-- Result of one `Show` call: the outcome, the warnings emitted during the
call, and the value of the module-level `_reportedPlotLib` flag after the
call. -/
structure ShowResult where
  outcome : ShowOutcome
  warnings : List PyWarning
  reportedPlotLib : Bool
deriving DecidableEq

/-- Embedding of `Show` from src/pydip/src/PyDIP_py.py.  `hasMatPlotLib`
and `reportedPlotLib` are the module-level flags; `imageDisplay` is an
oracle for the binary `ImageDisplay` (which may raise); `cAbs`/`cAngle`
stand for `np.abs`/`np.angle`.  The `extent` parameter (pure axis
scaling passed to matplotlib) and the rendering calls themselves are
outside the model; the function never mutates its `img` argument, which
the embedding expresses by taking `img` as an immutable value and
returning only the flag as state. -/
def Show (hasMatPlotLib reportedPlotLib : Bool)
    (imageDisplay : NpImage → RangeArg → String → String → List Nat → Nat → Nat →
      Except String (List ℚ))
    (cAbs cAngle : ℚ × ℚ → ℚ)
    (img : NpImage) (rangeArg : RangeArg) (complexMode projectionMode : String)
    (coordinates : List Nat) (dim1 dim2 : Nat) (colormap : String) : ShowResult :=
  if ¬hasMatPlotLib then
    if ¬reportedPlotLib then
      ⟨.noDisplay, [⟨"RuntimeWarning", matplotlibMissingMessage⟩], true⟩
    else
      ⟨.noDisplay, [], reportedPlotLib⟩
  else
    if img.size ≤ 1 then
      ⟨.nothingToDisplay, [⟨"SyntaxWarning", "Nothing to display"⟩], reportedPlotLib⟩
    else
      let sizes := img.shape.filter (fun x => 1 < x)
      if sizes.length = 1 then
        let data :=
          if img.isComplex then applyComplexMode1D complexMode cAbs cAngle img.cvals
          else PlotData.realVals (img.cvals.map Prod.fst)
        ⟨.plotted1D data, [], reportedPlotLib⟩
      else
        if dim1 = dim2 then
          ⟨.raised "dim1 and dim2 should be distinct", [], reportedPlotLib⟩
        else
          match imageDisplay img rangeArg complexMode projectionMode coordinates
              dim1 dim2 with
          | Except.error e => ⟨.raised e, [], reportedPlotLib⟩
          | Except.ok out =>
            let cm := resolveColormap rangeArg colormap
            ⟨.displayed out cm (decide (cm ∈ dipColormaps)), [], reportedPlotLib⟩

/-- Arbitrary stand-in for the binary `ImageDisplay` oracle, used only to
instantiate oracle parameters at concrete inputs. -/
def sampleImageDisplay : NpImage → RangeArg → String → String → List Nat → Nat → Nat →
    Except String (List ℚ) :=
  fun _ _ _ _ _ _ _ => Except.ok [0]

/-- Arbitrary stand-in for the numeric oracles `np.abs`/`np.angle`, used
only to instantiate oracle parameters at concrete inputs. -/
def sampleNumeric : ℚ × ℚ → ℚ := fun _ => 0

theorem one_lt_prod_of_mem (shape : List Nat) (h0 : ∀ x ∈ shape, x ≠ 0)
    (y : Nat) (hy : y ∈ shape) (h2 : 1 < y) : 1 < shape.prod := by
  induction shape with
  | nil => cases hy
  | cons a rest ih =>
    rw [List.prod_cons]
    have hrest0 : ∀ x ∈ rest, x ≠ 0 := fun x hx => h0 x (List.mem_cons_of_mem a hx)
    rcases List.mem_cons.mp hy with rfl | hy
    · have hrest : 0 < rest.prod := by
        rcases Nat.eq_zero_or_pos rest.prod with h | h
        · exact absurd (List.prod_eq_zero_iff.mp h) (by simpa using hrest0 0)
        · exact h
      calc 1 < y := h2
        _ = y * 1 := (Nat.mul_one y).symm
        _ ≤ y * rest.prod := Nat.mul_le_mul_left y hrest
    · have hr := ih hrest0 hy
      have ha : 1 ≤ a := Nat.one_le_iff_ne_zero.mpr (h0 a (List.mem_cons_self ..))
      calc 1 < rest.prod := hr
        _ = 1 * rest.prod := (Nat.one_mul _).symm
        _ ≤ a * rest.prod := Nat.mul_le_mul_right _ ha

theorem size_gt_one_of_nondegenerate (img : NpImage)
    (h0 : ∀ x ∈ img.shape, x ≠ 0)
    (h1 : 1 ≤ (img.shape.filter (fun x => 1 < x)).length) : 1 < img.size := by
  have hne : img.shape.filter (fun x => 1 < x) ≠ [] := by
    intro h; rw [h] at h1; simp at h1
  obtain ⟨y, hy⟩ := List.exists_mem_of_ne_nil _ hne
  have hm := List.mem_filter.mp hy
  have h2 : 1 < y := by simpa using hm.2
  exact one_lt_prod_of_mem img.shape h0 y hm.1 h2

/-- C5: when the image has more than one non-degenerate axis, `Show` called
with `dim1 == dim2` raises the typed `RuntimeError` with message
`dim1 and dim2 should be distinct`; for an image with exactly one
non-degenerate axis the 1-D branch plots a line and no error is raised for
that (or any) reason.  The hypothesis `h0` is the Image invariant that
every size is at least 1. -/
theorem C5_distinct_dims (reported : Bool)
    (imageDisplay : NpImage → RangeArg → String → String → List Nat → Nat → Nat →
      Except String (List ℚ))
    (cAbs cAngle : ℚ × ℚ → ℚ) (img : NpImage)
    (rangeArg : RangeArg) (complexMode projectionMode : String)
    (coordinates : List Nat) (dim1 dim2 : Nat) (colormap : String)
    (h0 : ∀ x ∈ img.shape, x ≠ 0) :
    (1 < (img.shape.filter (fun x => 1 < x)).length → dim1 = dim2 →
      (Show true reported imageDisplay cAbs cAngle img rangeArg complexMode
          projectionMode coordinates dim1 dim2 colormap).outcome =
        ShowOutcome.raised "dim1 and dim2 should be distinct") ∧
    ((img.shape.filter (fun x => 1 < x)).length = 1 →
      ∀ msg, (Show true reported imageDisplay cAbs cAngle img rangeArg complexMode
          projectionMode coordinates dim1 dim2 colormap).outcome ≠
        ShowOutcome.raised msg) := by
  constructor
  · intro hlen hdim
    have hsz : 1 < img.size := size_gt_one_of_nondegenerate img h0 (by omega)
    simp only [Show]
    rw [if_neg (by simp), if_neg (by omega), if_neg (by omega), if_pos hdim]
  · intro hlen msg
    have hsz : 1 < img.size := size_gt_one_of_nondegenerate img h0 (by omega)
    simp only [Show]
    rw [if_neg (by simp), if_neg (by omega), if_pos hlen]
    simp

/-- One-pixel image used to evaluate the tiny-image branch of `Show`. -/
def c4Image : NpImage := ⟨[1], [(3, 0)], false⟩

/-- Counterexample to C4 as stated: on a one-pixel image `Show` completes
normally (it warns `Nothing to display` and returns `None`); no typed
`EmptyInputError` is raised to the caller. -/
theorem C4_counterexample :
    Show true false sampleImageDisplay sampleNumeric sampleNumeric
        c4Image RangeArg.empty "abs" "mean" [] 0 1 "" =
      ⟨ShowOutcome.nothingToDisplay,
       [⟨"SyntaxWarning", "Nothing to display"⟩], false⟩ ∧
    ∀ msg, (Show true false sampleImageDisplay sampleNumeric sampleNumeric
        c4Image RangeArg.empty "abs" "mean" [] 0 1 "").outcome ≠
      ShowOutcome.raised msg := by
  refine ⟨rfl, fun msg h => ?_⟩
  rw [show (Show true false sampleImageDisplay sampleNumeric sampleNumeric
      c4Image RangeArg.empty "abs" "mean" [] 0 1 "").outcome =
      ShowOutcome.nothingToDisplay from rfl] at h
  cases h

/-- C4 (amended): for every image with at most one total element, `Show`
(with matplotlib present) warns `Nothing to display` as a `SyntaxWarning`
and returns without displaying and without raising; `ImageDisplay` is never
reached. -/
theorem C4_small_image_warns (reported : Bool)
    (imageDisplay : NpImage → RangeArg → String → String → List Nat → Nat → Nat →
      Except String (List ℚ))
    (cAbs cAngle : ℚ × ℚ → ℚ) (img : NpImage)
    (rangeArg : RangeArg) (complexMode projectionMode : String)
    (coordinates : List Nat) (dim1 dim2 : Nat) (colormap : String)
    (h : img.size ≤ 1) :
    Show true reported imageDisplay cAbs cAngle img rangeArg complexMode
        projectionMode coordinates dim1 dim2 colormap =
      ⟨ShowOutcome.nothingToDisplay,
       [⟨"SyntaxWarning", "Nothing to display"⟩], reported⟩ := by
  simp only [Show]
  rw [if_neg (by simp), if_pos h]

/-- Witness for C4 (amended): a one-pixel image takes the warn-and-return
branch. -/
theorem C4_small_image_warns_witness :
    Show true true sampleImageDisplay sampleNumeric sampleNumeric c4Image
        RangeArg.empty "abs" "mean" [] 0 1 "" =
      ⟨ShowOutcome.nothingToDisplay,
       [⟨"SyntaxWarning", "Nothing to display"⟩], true⟩ :=
  C4_small_image_warns true sampleImageDisplay sampleNumeric sampleNumeric
    c4Image RangeArg.empty "abs" "mean" [] 0 1 "" (by decide)

/-- Witness for C5: on a 3x4 image `Show` with `dim1 = dim2 = 0` raises,
and on a 1x5 image the 1-D branch never raises. -/
theorem C5_distinct_dims_witness :
    (Show true false sampleImageDisplay sampleNumeric sampleNumeric
        ⟨[3, 4], [], false⟩ RangeArg.empty "abs" "mean" [] 0 0 "").outcome =
      ShowOutcome.raised "dim1 and dim2 should be distinct" ∧
    (Show true false sampleImageDisplay sampleNumeric sampleNumeric
        ⟨[1, 5], [], false⟩ RangeArg.empty "abs" "mean" [] 0 0 "").outcome ≠
      ShowOutcome.raised "boom" :=
  ⟨(C5_distinct_dims false sampleImageDisplay sampleNumeric sampleNumeric
      ⟨[3, 4], [], false⟩ RangeArg.empty "abs" "mean" [] 0 0 ""
      (by decide)).1 (by decide) rfl,
   (C5_distinct_dims false sampleImageDisplay sampleNumeric sampleNumeric
      ⟨[1, 5], [], false⟩ RangeArg.empty "abs" "mean" [] 0 0 ""
      (by decide)).2 (by decide) "boom"⟩

/-- One-dimensional complex image used to exercise the `complexMode`
dispatch of the 1-D branch of `Show`. -/
def complexLineImage : NpImage := ⟨[4], [(1, 2), (3, 4), (5, 6), (7, 8)], true⟩

/-- Counterexample to C7 as stated: the `complexMode` string of `Show` is
not validated against its enumeration: with the unknown name `bogus` on a
1-D complex image the call completes silently, plotting the unreduced
complex data, instead of raising a typed error. -/
theorem C7_counterexample :
    Show true false sampleImageDisplay sampleNumeric sampleNumeric
        complexLineImage RangeArg.empty "bogus" "mean" [] 0 1 "" =
      ⟨ShowOutcome.plotted1D (PlotData.complexVals complexLineImage.cvals),
       [], false⟩ ∧
    ∀ msg, (Show true false sampleImageDisplay sampleNumeric sampleNumeric
        complexLineImage RangeArg.empty "bogus" "mean" [] 0 1 "").outcome ≠
      ShowOutcome.raised msg := by
  refine ⟨rfl, fun msg h => ?_⟩
  rw [show (Show true false sampleImageDisplay sampleNumeric sampleNumeric
      complexLineImage RangeArg.empty "bogus" "mean" [] 0 1 "").outcome =
      ShowOutcome.plotted1D (PlotData.complexVals complexLineImage.cvals)
      from rfl] at h
  cases h

/-- C7 (amended): the format strings of `ImageRead` and `ImageWrite` are
validated against their closed enumerations, an unknown nonempty format
raising `ValueError` with message `Unknown format`; the `complexMode`
string of the 1-D branch of `Show`, however, is not validated: an unknown
name falls through silently, leaving complex data unreduced. -/
theorem C7_option_validation {α : Type} (R : Readers α) (W : Writers α)
    (image : α) :
    (∀ filename format,
      format ∉ (["", "ics", "tiff", "jpeg", "bioformats"] : List String) →
      ImageRead R filename format = Except.error "Unknown format") ∧
    (∀ filename format compression,
      format ∉ (["", "ics", "icsv1", "icsv2", "tiff", "jpeg"] : List String) →
      ImageWrite W image filename format compression =
        Except.error "Unknown format") ∧
    (∀ complexMode (cAbs cAngle : ℚ × ℚ → ℚ) (v : List (ℚ × ℚ)),
      complexMode ∉ (["abs", "magnitude", "phase", "real", "imag"] : List String) →
      applyComplexMode1D complexMode cAbs cAngle v = PlotData.complexVals v) := by
  refine ⟨?_, ?_, ?_⟩
  · intro filename format h
    simp only [List.mem_cons, List.not_mem_nil, or_false] at h
    push_neg at h
    obtain ⟨h1, h2, h3, h4, h5⟩ := h
    unfold ImageRead
    simp [h1, h2, h3, h4, h5]
  · intro filename format compression h
    simp only [List.mem_cons, List.not_mem_nil, or_false] at h
    push_neg at h
    obtain ⟨h1, h2, h3, h4, h5, h6⟩ := h
    unfold ImageWrite
    simp [h1, h2, h3, h4, h5, h6]
  · intro complexMode cAbs cAngle v h
    simp only [List.mem_cons, List.not_mem_nil, or_false] at h
    push_neg at h
    obtain ⟨h1, h2, h3, h4, h5⟩ := h
    unfold applyComplexMode1D
    simp [h1, h2, h3, h4, h5]

/-- Witness for C7 (amended): the unknown format `qoi` is rejected by both
`ImageRead` and `ImageWrite`, and the unknown complexMode `bogus` falls
through. -/
theorem C7_option_validation_witness :
    ImageRead sampleReaders "f.tif" "qoi" = Except.error "Unknown format" ∧
    ImageWrite sampleWriters 0 "f.tif" "qoi" "" = Except.error "Unknown format" ∧
    applyComplexMode1D "bogus" sampleNumeric sampleNumeric [(1, 2)] =
      PlotData.complexVals [(1, 2)] :=
  ⟨(C7_option_validation sampleReaders sampleWriters 0).1 "f.tif" "qoi" (by decide),
   (C7_option_validation sampleReaders sampleWriters 0).2.1 "f.tif" "qoi" "" (by decide),
   (C7_option_validation sampleReaders sampleWriters 0).2.2 "bogus"
     sampleNumeric sampleNumeric [(1, 2)] (by decide)⟩

/-- C9: when matplotlib is not installed, `Show` never raises: it returns
`None` without touching the image, the RuntimeWarning advising how to
install matplotlib is emitted only while `_reportedPlotLib` is still false,
the flag is set by the first such call, and any call after a first call is
fully silent. -/
theorem C9_missing_matplotlib (reported : Bool)
    (imageDisplay : NpImage → RangeArg → String → String → List Nat → Nat → Nat →
      Except String (List ℚ))
    (cAbs cAngle : ℚ × ℚ → ℚ) (img : NpImage)
    (rangeArg : RangeArg) (complexMode projectionMode : String)
    (coordinates : List Nat) (dim1 dim2 : Nat) (colormap : String) :
    (Show false reported imageDisplay cAbs cAngle img rangeArg complexMode
        projectionMode coordinates dim1 dim2 colormap).outcome =
      ShowOutcome.noDisplay ∧
    (Show false reported imageDisplay cAbs cAngle img rangeArg complexMode
        projectionMode coordinates dim1 dim2 colormap).reportedPlotLib = true ∧
    (reported = false →
      (Show false reported imageDisplay cAbs cAngle img rangeArg complexMode
          projectionMode coordinates dim1 dim2 colormap).warnings =
        [⟨"RuntimeWarning", matplotlibMissingMessage⟩]) ∧
    (reported = true →
      (Show false reported imageDisplay cAbs cAngle img rangeArg complexMode
          projectionMode coordinates dim1 dim2 colormap).warnings = []) ∧
    (Show false
        (Show false reported imageDisplay cAbs cAngle img rangeArg complexMode
          projectionMode coordinates dim1 dim2 colormap).reportedPlotLib
        imageDisplay cAbs cAngle img rangeArg complexMode
        projectionMode coordinates dim1 dim2 colormap).warnings = [] := by
  cases reported <;> simp [Show]

/-- Witness for C9: the first call with the flag clear emits exactly the
advisory RuntimeWarning; the follow-up call is silent. -/
theorem C9_missing_matplotlib_witness :
    (Show false false sampleImageDisplay sampleNumeric sampleNumeric
        c4Image RangeArg.empty "abs" "mean" [] 0 1 "").warnings =
      [⟨"RuntimeWarning", matplotlibMissingMessage⟩] ∧
    (Show false true sampleImageDisplay sampleNumeric sampleNumeric
        c4Image RangeArg.empty "abs" "mean" [] 0 1 "").warnings = [] :=
  ⟨(C9_missing_matplotlib false sampleImageDisplay sampleNumeric sampleNumeric
      c4Image RangeArg.empty "abs" "mean" [] 0 1 "").2.2.1 rfl,
   (C9_missing_matplotlib true sampleImageDisplay sampleNumeric sampleNumeric
      c4Image RangeArg.empty "abs" "mean" [] 0 1 "").2.2.2.1 rfl⟩

/-- Modelled from the spec: an Image of the native container (which lives in
the binary module `PyDIP_bin`, not in the Python sources) reduced to what the
masked gather/scatter operations observe: its spatial `sizes` and its pixel
payloads in raster order (axis 0 varying fastest).  `α` is the per-pixel
tensor value. -/
structure DipImage (α : Type) where
  sizes : List Nat
  vals : List α
deriving DecidableEq

/-- Modelled from the spec: the raster-order gather underlying
`CopyAt(mask)`: enumerate the values at every position where the mask is
true, in order. -/
def copyAtList {α : Type} : List α → List Bool → List α
  | v :: vs, true :: bs => v :: copyAtList vs bs
  | _ :: vs, false :: bs => copyAtList vs bs
  | _, _ => []

/-- Modelled from the spec: the raster-order scatter underlying
`FillAt(values, mask)`: write the source values to the mask-true positions
in order; `none` when the mask length does not match the target or the
source length does not equal the true-count. -/
def fillAtList {α : Type} : List α → List Bool → List α → Option (List α)
  | [], [], [] => some []
  | v :: vs, false :: bs, src => (fillAtList vs bs src).map (fun r => v :: r)
  | _ :: vs, true :: bs, s :: ss => (fillAtList vs bs ss).map (fun r => s :: r)
  | _, _, _ => none

/-- Modelled from the spec: `CopyAt(mask)` returns a newly allocated 1-D
Image enumerating, in raster order, the tensor values at every pixel where
the mask is true; fails with `DimensionMismatchError` if the mask sizes
differ from the target. -/
def CopyAt {α : Type} (a : DipImage α) (m : DipImage Bool) :
    Except String (DipImage α) :=
  if m.sizes ≠ a.sizes then Except.error "DimensionMismatchError"
  else
    let sel := copyAtList a.vals m.vals
    Except.ok ⟨[sel.length], sel⟩

/-- Modelled from the spec: `FillAt(values, mask)` writes a 1-D image whose
length equals the mask's true-count to the mask-true positions in raster
order; fails with `DimensionMismatchError` if mask sizes differ from the
target, or `LengthMismatchError` if the source length does not equal the
true-count. -/
def FillAt {α : Type} (a : DipImage α) (src : DipImage α) (m : DipImage Bool) :
    Except String (DipImage α) :=
  if m.sizes ≠ a.sizes then Except.error "DimensionMismatchError"
  else
    match fillAtList a.vals m.vals src.vals with
    | some r => Except.ok ⟨a.sizes, r⟩
    | none => Except.error "LengthMismatchError"

theorem fillAtList_copyAtList {α : Type} :
    ∀ (vals : List α) (mask : List Bool), vals.length = mask.length →
      fillAtList vals mask (copyAtList vals mask) = some vals
  | [], [], _ => rfl
  | [], _ :: _, h => by simp at h
  | _ :: _, [], h => by simp at h
  | v :: vs, true :: bs, h => by
    have ih := fillAtList_copyAtList vs bs (by simpa using h)
    simp [copyAtList, fillAtList, ih]
  | v :: vs, false :: bs, h => by
    have ih := fillAtList_copyAtList vs bs (by simpa using h)
    simp [copyAtList, fillAtList, ih]

/-- C2: for every image `a` and boolean mask `m` with the same sizes as `a`
(and scalar tensor shape), the round-trip `a.FillAt(a.CopyAt(m), m)` leaves
`a` unchanged: `CopyAt` gathers the selected values in raster order and
`FillAt` scatters them back to the same positions in the same order.  The
hypotheses are the Image invariant that the stored values fill the sizes. -/
theorem C2_gather_scatter_inverse {α : Type} (a : DipImage α) (m : DipImage Bool)
    (hsz : m.sizes = a.sizes)
    (ha : a.vals.length = a.sizes.prod) (hm : m.vals.length = m.sizes.prod) :
    (CopyAt a m).bind (fun t => FillAt a t m) = Except.ok a := by
  have hlen : a.vals.length = m.vals.length := by rw [ha, hm, hsz]
  have hcopy : CopyAt a m =
      Except.ok ⟨[(copyAtList a.vals m.vals).length], copyAtList a.vals m.vals⟩ := by
    unfold CopyAt
    rw [if_neg (by simp [hsz])]
  rw [hcopy]
  show FillAt a _ m = _
  unfold FillAt
  rw [if_neg (by simp [hsz]), fillAtList_copyAtList a.vals m.vals hlen]

/-- Witness for C2: the round-trip on a 2x2 image with an alternating mask
returns the image unchanged. -/
theorem C2_gather_scatter_inverse_witness :
    (CopyAt (⟨[2, 2], [10, 20, 30, 40]⟩ : DipImage Nat)
        ⟨[2, 2], [true, false, true, false]⟩).bind
      (fun t => FillAt ⟨[2, 2], [10, 20, 30, 40]⟩ t
        ⟨[2, 2], [true, false, true, false]⟩) =
      Except.ok (⟨[2, 2], [10, 20, 30, 40]⟩ : DipImage Nat) :=
  C2_gather_scatter_inverse ⟨[2, 2], [10, 20, 30, 40]⟩
    ⟨[2, 2], [true, false, true, false]⟩ rfl (by decide) (by decide)

/-- Flat buffer index of a coordinate list under the default raster layout
of the spec (axis 0 varying fastest): the mixed-radix value of the
coordinates in the given sizes. -/
def flatIndex : List Nat → List Nat → Nat
  | _, [] => 0
  | [], _ => 0
  | s :: ss, c :: cs => c + s * flatIndex ss cs

/-- All coordinate lists of an image with the given sizes, axis 0 varying
fastest. -/
def allCoords : List Nat → List (List Nat)
  | [] => [[]]
  | s :: rest => (allCoords rest).flatMap (fun cs => (List.range s).map (fun i => i :: cs))

/-- Modelled from the spec: the numeric primitives used by the display
mapper of the binary module that have no exact rational form (complex
magnitude and phase, the logarithm, and the constant pi); they enter the
model as oracle parameters. -/
structure DisplayNumerics where
  cAbs : ℚ × ℚ → ℚ
  cAngle : ℚ × ℚ → ℚ
  rlog : ℚ → ℚ
  pi : ℚ

/-- Modelled from the spec: the image as the display mapper sees it: sizes,
flattened pixel values in raster order (real/imaginary pairs) and whether
the pixel type is complex. -/
structure DisplayImage where
  sizes : List Nat
  cvals : List (ℚ × ℚ)
  isComplex : Bool
deriving DecidableEq

/-- Modelled from the spec: the mapper's output: a 1-D vector for 1-D
inputs, otherwise a freshly allocated 2-D raster (rows indexed by `dim2`,
columns by `dim1`). -/
inductive DisplayRaster where
  | oneD (v : List ℚ)
  | twoD (rows : List (List ℚ))
deriving DecidableEq

/-- Modelled from the spec: `complexMode`, one of abs, phase, real, imag,
applied before range mapping when the pixel type is complex; `none` for a
name outside the closed enumeration. -/
def complexReduce (N : DisplayNumerics) (complexMode : String)
    (img : DisplayImage) : Option (List ℚ) :=
  if ¬img.isComplex then some (img.cvals.map Prod.fst)
  else if complexMode = "abs" then some (img.cvals.map N.cAbs)
  else if complexMode = "phase" then some (img.cvals.map N.cAngle)
  else if complexMode = "real" then some (img.cvals.map Prod.fst)
  else if complexMode = "imag" then some (img.cvals.map Prod.snd)
  else none

/-- Pixel read in raster order, with 0 for out-of-range reads (never hit on
valid coordinates). -/
def valAt (sizes : List Nat) (reals : List ℚ) (cs : List Nat) : ℚ :=
  reals.getD (flatIndex sizes cs) 0

/-- Modelled from the spec: the value of output cell `(i, j)`: for `slice`
the plane through `coordinates` with `dim1` at `i` and `dim2` at `j`; for
`max`/`mean` the reduction over all coordinates agreeing with `(i, j)` on
the displayed axes. -/
def projectAt (sizes : List Nat) (reals : List ℚ) (projectionMode : String)
    (coordinates : List Nat) (dim1 dim2 : Nat) (i j : Nat) : ℚ :=
  if projectionMode = "slice" then
    valAt sizes reals
      ((List.range sizes.length).map
        (fun d => if d = dim1 then i else if d = dim2 then j else coordinates.getD d 0))
  else
    let group := ((allCoords sizes).filter
      (fun cs => (cs.getD dim1 0 == i) && (cs.getD dim2 0 == j))).map (valAt sizes reals)
    if projectionMode = "max" then
      match group with
      | [] => 0
      | v :: rest => rest.foldl max v
    else
      group.sum / (group.length : ℚ)

/-- Modelled from the spec: the unmapped output raster: a 1-D vector for a
1-D image, otherwise the 2-D grid of projected values. -/
def buildRaster (sizes : List Nat) (reals : List ℚ) (projectionMode : String)
    (coordinates : List Nat) (dim1 dim2 : Nat) : DisplayRaster :=
  if sizes.length = 1 then
    DisplayRaster.oneD reals
  else
    let s1 := sizes.getD dim1 0
    let s2 := sizes.getD dim2 0
    DisplayRaster.twoD
      ((List.range s2).map (fun j =>
        (List.range s1).map (fun i =>
          projectAt sizes reals projectionMode coordinates dim1 dim2 i j)))

/-- Nonlinear pre-mapping kind selected by a range policy. -/
inductive RangeMapKind where
  | linear
  | modulo
  | logarithmic
deriving DecidableEq

/-- Insertion step of the sort used by the percentile policy. -/
def insertRat (x : ℚ) : List ℚ → List ℚ
  | [] => [x]
  | y :: ys => if x ≤ y then x :: y :: ys else y :: insertRat x ys

/-- Ascending insertion sort of the data values. -/
def sortRat : List ℚ → List ℚ
  | [] => []
  | x :: xs => insertRat x (sortRat xs)

/-- Minimum of the data values (0 for an empty list, never hit: the mapper
rejects images with at most one element). -/
def dataMin : List ℚ → ℚ
  | [] => 0
  | v :: rest => rest.foldl min v

/-- Maximum of the data values (0 for an empty list). -/
def dataMax : List ℚ → ℚ
  | [] => 0
  | v :: rest => rest.foldl max v

/-- The `p`-th percentile of the data: the sorted value at the proportional
index. -/
def percentileVal (p : Nat) (xs : List ℚ) : ℚ :=
  (sortRat xs).getD ((xs.length - 1) * p / 100) 0

/-- Modelled from the spec: resolution of the `range` argument into a
(low, high, pre-map) triple: an explicit pair, or one of the named policies
(`unit`, `normal`/`8bit`, `12bit`/`16bit` and signed variants, `angle` and
`orientation` with modulo wraparound, `lin`/`all` as data min/max which is
also the default, `percentile` as the 5th/95th percentiles, `base`/`based`
mapping zero to the middle of the output range, `log` as logarithmic
compression, `modulo`/`labels` as `(0,255)` with folding); `none` for a
name outside the closed enumeration. -/
def resolveRangePolicy (N : DisplayNumerics) (rangeArg : RangeArg)
    (data : List ℚ) : Option (ℚ × ℚ × RangeMapKind) :=
  match rangeArg with
  | .pair lo hi => some (lo, hi, .linear)
  | .empty => some (dataMin data, dataMax data, .linear)
  | .named s =>
    if s = "lin" ∨ s = "all" then some (dataMin data, dataMax data, .linear)
    else if s = "unit" then some (0, 1, .linear)
    else if s = "normal" ∨ s = "8bit" then some (0, 255, .linear)
    else if s = "12bit" then some (0, 4096, .linear)
    else if s = "16bit" then some (0, 65536, .linear)
    else if s = "s8bit" then some (-128, 127, .linear)
    else if s = "s12bit" then some (-2048, 2047, .linear)
    else if s = "s16bit" then some (-32768, 32767, .linear)
    else if s = "angle" then some (0, 2 * N.pi, .modulo)
    else if s = "orientation" then some (0, N.pi, .modulo)
    else if s = "percentile" then
      some (percentileVal 5 data, percentileVal 95 data, .linear)
    else if s = "base" ∨ s = "based" then
      let m := max |dataMin data| |dataMax data|
      some (-m, m, .linear)
    else if s = "log" then some (dataMin data, dataMax data, .logarithmic)
    else if s = "modulo" ∨ s = "labels" then some (0, 255, .modulo)
    else none

/-- Modelled from the spec: the map of one value into the `[0, 255]` output
range: linear interpolation after the pre-map (modulo folding into the
range width, or logarithmic compression); degenerate ranges map to 0. -/
def mapValue (N : DisplayNumerics) (lo hi : ℚ) (kind : RangeMapKind) (v : ℚ) : ℚ :=
  match kind with
  | .linear => if hi = lo then 0 else (v - lo) * 255 / (hi - lo)
  | .modulo =>
    if hi = lo then 0
    else
      let w := hi - lo
      let folded := v - w * ((Int.floor ((v - lo) / w) : ℤ) : ℚ)
      (folded - lo) * 255 / w
  | .logarithmic =>
    if N.rlog (hi - lo + 1) = 0 then 0
    else N.rlog (v - lo + 1) * 255 / N.rlog (hi - lo + 1)

/-- Range mapping applied to every cell of the raster. -/
def mapRaster (N : DisplayNumerics) (lo hi : ℚ) (kind : RangeMapKind) :
    DisplayRaster → DisplayRaster
  | .oneD v => .oneD (v.map (mapValue N lo hi kind))
  | .twoD rows => .twoD (rows.map (fun r => r.map (mapValue N lo hi kind)))

/-- Modelled from the spec: the contract of `ImageDisplay(image, range,
complexMode, projectionMode, coordinates, dim1, dim2)` of the binary module
`PyDIP_bin` (absent from the Python sources): fails with `EmptyInputError`
when the image has at most one element, `InvalidAxisError` when an axis is
out of bounds or `dim1 == dim2` with more than one non-degenerate axis,
`InvalidProjectionError` when `slice` coordinates do not match the
dimensionality or the projection name is unknown; otherwise reduces complex
values, projects to the displayed plane and linearly maps the selected
range onto `[0, 255]`, returning a freshly allocated raster. -/
def ImageDisplay (N : DisplayNumerics) (img : DisplayImage) (rangeArg : RangeArg)
    (complexMode projectionMode : String) (coordinates : List Nat)
    (dim1 dim2 : Nat) : Except String DisplayRaster :=
  if img.sizes.prod ≤ 1 then Except.error "EmptyInputError"
  else if img.sizes.length ≤ dim1 ∨ img.sizes.length ≤ dim2 then
    Except.error "InvalidAxisError"
  else if dim1 = dim2 ∧ 1 < (img.sizes.filter (fun x => 1 < x)).length then
    Except.error "InvalidAxisError"
  else if projectionMode = "slice" ∧ coordinates.length ≠ img.sizes.length then
    Except.error "InvalidProjectionError"
  else if ¬(projectionMode = "slice" ∨ projectionMode = "max" ∨ projectionMode = "mean") then
    Except.error "InvalidProjectionError"
  else
    match complexReduce N complexMode img with
    | none => Except.error "InvalidComplexModeError"
    | some reals =>
      match resolveRangePolicy N rangeArg reals with
      | none => Except.error "InvalidRangeError"
      | some (lo, hi, kind) =>
        Except.ok (mapRaster N lo hi kind
          (buildRaster img.sizes reals projectionMode coordinates dim1 dim2))

/-- Modelled from the spec: one `ImageDisplay` call observed together with
the state of the input image after the call: the mapper has no side effects
on `image`, which the model expresses by returning the image unchanged next
to the fresh raster. -/
def ImageDisplayCall (N : DisplayNumerics) (img : DisplayImage)
    (rangeArg : RangeArg) (complexMode projectionMode : String)
    (coordinates : List Nat) (dim1 dim2 : Nat) :
    Except String (DisplayRaster × DisplayImage) :=
  (ImageDisplay N img rangeArg complexMode projectionMode coordinates dim1 dim2).map
    (fun r => (r, img))

/-- C3: the display mapper is deterministic and side-effect-free: calling
it twice with identical arguments on an unmodified image produces identical
output rasters, and neither call mutates the input image. -/
theorem C3_display_deterministic (N : DisplayNumerics) (img : DisplayImage)
    (rangeArg : RangeArg) (complexMode projectionMode : String)
    (coordinates : List Nat) (dim1 dim2 : Nat)
    (r1 r2 : DisplayRaster) (img1 img2 : DisplayImage)
    (h1 : ImageDisplayCall N img rangeArg complexMode projectionMode
        coordinates dim1 dim2 = Except.ok (r1, img1))
    (h2 : ImageDisplayCall N img1 rangeArg complexMode projectionMode
        coordinates dim1 dim2 = Except.ok (r2, img2)) :
    r1 = r2 ∧ img1 = img ∧ img2 = img := by
  unfold ImageDisplayCall at h1 h2
  cases hd : ImageDisplay N img rangeArg complexMode projectionMode coordinates dim1 dim2 with
  | error e =>
    rw [hd] at h1
    cases h1
  | ok r =>
    rw [hd] at h1
    simp only [Except.map, Except.ok.injEq, Prod.mk.injEq] at h1
    obtain ⟨hr1, hi1⟩ := h1
    subst hi1
    rw [hd] at h2
    simp only [Except.map, Except.ok.injEq, Prod.mk.injEq] at h2
    obtain ⟨hr2, hi2⟩ := h2
    exact ⟨hr1.symm.trans hr2, rfl, hi2.symm⟩

/-- Oracle bundle with all numeric primitives stubbed to 0, used only to
instantiate oracle parameters at concrete inputs. -/
def sampleNumerics : DisplayNumerics := ⟨fun _ => 0, fun _ => 0, fun _ => 0, 0⟩

/-- Concrete 2x2 real image used to evaluate the display mapper. -/
def sampleDisplayImage : DisplayImage := ⟨[2, 2], [(1, 0), (2, 0), (3, 0), (4, 0)], false⟩

/-- Witness for C3: the two calls on the concrete 2x2 image both return the
same raster (here the degenerate range maps every value to 0) and leave the
image unchanged. -/
theorem C3_display_deterministic_witness :
    DisplayRaster.twoD [[0, 0], [0, 0]] = DisplayRaster.twoD [[0, 0], [0, 0]] ∧
    sampleDisplayImage = sampleDisplayImage ∧
    sampleDisplayImage = sampleDisplayImage :=
  C3_display_deterministic sampleNumerics sampleDisplayImage
    (RangeArg.pair 0 0) "abs" "slice" [0, 0] 0 1
    (DisplayRaster.twoD [[0, 0], [0, 0]]) (DisplayRaster.twoD [[0, 0], [0, 0]])
    sampleDisplayImage sampleDisplayImage (by rfl) (by rfl)

/-- Modelled from the spec: strides of a freshly created image (the
container lives in the binary module `PyDIP_bin`): cumulative products of
the sizes with dimension 0 fastest-varying, in elements. -/
def defaultStrides : List Nat → List Int
  | [] => []
  | s :: rest => 1 :: (defaultStrides rest).map (fun d => d * s)

/-- Modelled from the spec: buffer address of a coordinate list: the origin
offset plus the stride-weighted sum of the coordinates. -/
def address (strides : List Int) (origin : Int) (coords : List Nat) : Int :=
  origin + (List.zipWith (fun (st : Int) (c : Nat) => st * (c : Int)) strides coords).sum

/-- Valid coordinate lists of an image: one coordinate per axis, each below
its size. -/
def validCoords (sizes : List Nat) (coords : List Nat) : Prop :=
  List.Forall₂ (fun c s => c < s) coords sizes

/-- A spatial range as passed to `Image.At`: start, stop (inclusive) and
step, with negative start/stop counting from the end of the axis. -/
structure DipRange where
  start : Int
  stop : Int
  step : Int
deriving DecidableEq

/-- Modelled from the spec: normalization of one index against an axis
size: a negative index counts from the end. -/
def resolveIndex (size : Nat) (i : Int) : Int :=
  if i < 0 then i + size else i

/-- Modelled from the spec: resolution of one range against one axis: the
normalized start and stop must land in `[0, size - 1]` (`IndexError`
otherwise), the step must be nonzero (a negative step reverses traversal),
and the view's axis size is `floor((stop - start) / step) + 1` (inclusive
stop), which must be at least 1.  The floor division is computed with a
positive divisor in both branches (Lean's `/` on `Int` is Euclidean
division, which is the floor for positive divisors).  Returns the resolved
start, the step and the view size. -/
def resolveRange (size : Nat) (r : DipRange) : Option (Nat × Int × Nat) :=
  let start := resolveIndex size r.start
  let stop := resolveIndex size r.stop
  if r.step = 0 then none
  else if start < 0 ∨ (size : Int) ≤ start ∨ stop < 0 ∨ (size : Int) ≤ stop then none
  else
    let vsize :=
      if 0 < r.step then (stop - start) / r.step + 1
      else (start - stop) / (-r.step) + 1
    if vsize ≤ 0 then none
    else some (start.toNat, r.step, vsize.toNat)

/-- Resolution of a full range list against the sizes, one range per axis. -/
def resolveAll : List Nat → List DipRange → Option (List (Nat × Int × Nat))
  | [], [] => some []
  | s :: ss, r :: rs =>
    match resolveRange s r, resolveAll ss rs with
    | some x, some xs => some (x :: xs)
    | _, _ => none
  | _, _ => none

/-- Modelled from the spec: the addressing metadata of an Image or View
over a shared buffer: per-axis sizes and strides plus the origin offset. -/
structure StridedImage where
  sizes : List Nat
  strides : List Int
  origin : Int
deriving DecidableEq

/-- Modelled from the spec: the spatial slice `Image.At(ranges)`: each
range is resolved against its axis; the view shares the buffer and
recomputes sizes (the range length), strides (stride times step) and
origin (start offsets applied); no pixel data is copied. -/
def atView (img : StridedImage) (rs : List DipRange) : Option StridedImage :=
  match resolveAll img.sizes rs with
  | none => none
  | some res =>
    some { sizes := res.map (fun x => x.2.2),
           strides := List.zipWith (fun (st : Int) (x : Nat × Int × Nat) => st * x.2.1)
             img.strides res,
           origin := img.origin +
             (List.zipWith (fun (st : Int) (x : Nat × Int × Nat) => st * (x.1 : Int))
               img.strides res).sum }

/-- The buffer addresses covered by an image or view: the address of every
valid coordinate list. -/
def coveredAddresses (v : StridedImage) : List Int :=
  (allCoords v.sizes).map (address v.strides v.origin)

/-- Modelled from the spec: `Fill(value)` through a view of a shared
buffer: every buffer cell addressed by the view is overwritten with the
value, every other cell is untouched; no copy of the buffer is made. -/
def fillView {α : Type} (v : StridedImage) (value : α) (buf : Int → α) : Int → α :=
  fun p => if p ∈ coveredAddresses v then value else buf p

/-- The source coordinates `start + k * step` per axis corresponding to a
view coordinate list `ks`. -/
def sourceCoords (res : List (Nat × Int × Nat)) (ks : List Nat) : List Nat :=
  List.zipWith (fun (x : Nat × Int × Nat) (k : Nat) => ((x.1 : Int) + (k : Int) * x.2.1).toNat)
    res ks

/-- A source coordinate list is covered by the resolved ranges when it is
the image of some valid view coordinate list. -/
def coveredCoord (res : List (Nat × Int × Nat)) (cs : List Nat) : Prop :=
  cs ∈ (allCoords (res.map (fun x => x.2.2))).map (sourceCoords res)

instance (sizes cs : List Nat) : Decidable (validCoords sizes cs) :=
  inferInstanceAs (Decidable (List.Forall₂ _ _ _))

instance (res : List (Nat × Int × Nat)) (cs : List Nat) : Decidable (coveredCoord res cs) :=
  inferInstanceAs (Decidable (_ ∈ _))

theorem resolveRange_spec {s : Nat} {r : DipRange} {st : Nat} {sp : Int} {n : Nat}
    (h : resolveRange s r = some (st, sp, n)) :
    sp ≠ 0 ∧ 0 < n ∧ (st : Int) < s ∧
      ∀ k : Nat, k < n → 0 ≤ (st : Int) + k * sp ∧ (st : Int) + k * sp < s := by
  unfold resolveRange at h
  set start := resolveIndex s r.start with hstart
  set stop := resolveIndex s r.stop with hstop
  by_cases h0 : r.step = 0
  · rw [if_pos h0] at h; cases h
  rw [if_neg h0] at h
  by_cases hb : start < 0 ∨ (s : Int) ≤ start ∨ stop < 0 ∨ (s : Int) ≤ stop
  · rw [if_pos hb] at h; cases h
  rw [if_neg hb] at h
  push_neg at hb
  obtain ⟨hb1, hb2, hb3, hb4⟩ := hb
  set vsize := (if 0 < r.step then (stop - start) / r.step + 1
    else (start - stop) / (-r.step) + 1) with hvsize
  by_cases hv : vsize ≤ 0
  · rw [if_pos hv] at h; cases h
  rw [if_neg hv] at h
  push_neg at hv
  injection h with h
  obtain ⟨hst, hsp, hn⟩ : start.toNat = st ∧ r.step = sp ∧ vsize.toNat = n := by
    have h1 := congrArg Prod.fst h
    have h2 := congrArg (fun p => p.2.1) h
    have h3 := congrArg (fun p => p.2.2) h
    exact ⟨h1, h2, h3⟩
  subst hsp
  have hstInt : (st : Int) = start := by rw [← hst, Int.toNat_of_nonneg hb1]
  have hnInt : (n : Int) = vsize := by rw [← hn, Int.toNat_of_nonneg (le_of_lt hv)]
  refine ⟨h0, by omega, by omega, ?_⟩
  intro k hk
  have hkInt : (k : Int) < vsize := by
    rw [← hnInt]; exact_mod_cast hk
  rcases lt_trichotomy r.step 0 with hsn | hz | hsn
  · rw [hvsize] at hkInt
    rw [if_neg (by omega)] at hkInt
    have hkF : (k : Int) ≤ (start - stop) / (-r.step) := by omega
    have hF : (start - stop) / (-r.step) * (-r.step) ≤ start - stop :=
      Int.ediv_mul_le (start - stop) (by omega)
    have hkt : (k : Int) * (-r.step) ≤ (start - stop) / (-r.step) * (-r.step) :=
      mul_le_mul_of_nonneg_right hkF (by omega)
    have hk0 : 0 ≤ (k : Int) * (-r.step) := mul_nonneg (by positivity) (by omega)
    constructor
    · nlinarith
    · nlinarith
  · exact absurd hz h0
  · rw [hvsize] at hkInt
    rw [if_pos hsn] at hkInt
    have hkF : (k : Int) ≤ (stop - start) / r.step := by omega
    have hF : (stop - start) / r.step * r.step ≤ stop - start :=
      Int.ediv_mul_le (stop - start) h0
    have hkt : (k : Int) * r.step ≤ (stop - start) / r.step * r.step :=
      mul_le_mul_of_nonneg_right hkF (by omega)
    have hk0 : 0 ≤ (k : Int) * r.step := mul_nonneg (by positivity) (by omega)
    constructor
    · omega
    · omega

theorem resolveAll_forall₂ :
    ∀ {sizes : List Nat} {rs : List DipRange} {res : List (Nat × Int × Nat)},
      resolveAll sizes rs = some res →
      List.Forall₂ (fun s x => ∃ r, resolveRange s r = some x) sizes res := by
  intro sizes
  induction sizes with
  | nil =>
    intro rs res h
    cases rs with
    | nil => cases h; exact List.Forall₂.nil
    | cons r rs => cases h
  | cons s ss ih =>
    intro rs res h
    cases rs with
    | nil => cases h
    | cons r rs =>
      unfold resolveAll at h
      cases hx : resolveRange s r with
      | none => rw [hx] at h; cases h
      | some x =>
        rw [hx] at h
        cases hxs : resolveAll ss rs with
        | none => rw [hxs] at h; cases h
        | some xs =>
          rw [hxs] at h
          injection h with h
          subst h
          exact List.Forall₂.cons ⟨r, hx⟩ (ih hxs)

theorem mem_allCoords :
    ∀ (sizes : List Nat) (cs : List Nat),
      cs ∈ allCoords sizes ↔ validCoords sizes cs := by
  intro sizes
  induction sizes with
  | nil =>
    intro cs
    simp only [allCoords, List.mem_singleton, validCoords]
    constructor
    · rintro rfl; exact List.Forall₂.nil
    · intro h; cases h; rfl
  | cons s ss ih =>
    intro cs
    simp only [allCoords, List.mem_flatMap, List.mem_map, List.mem_range, validCoords]
    constructor
    · rintro ⟨tail, htail, i, hi, rfl⟩
      exact List.Forall₂.cons hi ((ih tail).mp htail)
    · intro h
      cases cs with
      | nil => cases h
      | cons c cc =>
        obtain ⟨hc, hcc⟩ := List.forall₂_cons.mp h
        exact ⟨cc, (ih cc).mpr hcc, c, hc, rfl⟩

theorem sum_map_mul_left_int (s : Int) (L : List Int) :
    (L.map (fun y => s * y)).sum = s * L.sum := by
  induction L with
  | nil => simp
  | cons a l ih => simp [ih, mul_add]

theorem zipWith_defaultStrides_sum :
    ∀ (sizes : List Nat) (cs : List Nat),
      (List.zipWith (fun (st : Int) (c : Nat) => st * (c : Int)) (defaultStrides sizes) cs).sum =
        (flatIndex sizes cs : Int) := by
  intro sizes
  induction sizes with
  | nil => intro cs; cases cs <;> simp [defaultStrides, flatIndex]
  | cons s ss ih =>
    intro cs
    cases cs with
    | nil => simp [defaultStrides, flatIndex]
    | cons c cc =>
      simp only [defaultStrides, List.zipWith_cons_cons, List.sum_cons]
      rw [List.zipWith_map_left]
      have hfun : (fun (a : Int) (b : Nat) => a * s * (b : Int)) =
          fun (a : Int) (b : Nat) => s * (a * (b : Int)) := by
        funext a b; ring
      rw [hfun, ← List.map_zipWith (fun (y : Int) => s * y)
        (fun (a : Int) (b : Nat) => a * (b : Int)) (defaultStrides ss) cc,
        sum_map_mul_left_int, ih cc]
      show 1 * (c : Int) + s * (flatIndex ss cc : Int) = ((c + s * flatIndex ss cc : Nat) : Int)
      push_cast
      ring

theorem flatIndex_inj :
    ∀ (sizes : List Nat) (cs1 cs2 : List Nat),
      validCoords sizes cs1 → validCoords sizes cs2 →
      flatIndex sizes cs1 = flatIndex sizes cs2 → cs1 = cs2 := by
  intro sizes
  induction sizes with
  | nil =>
    intro cs1 cs2 h1 h2 _
    cases h1; cases h2; rfl
  | cons s ss ih =>
    intro cs1 cs2 h1 h2 heq
    cases cs1 with
    | nil => cases h1
    | cons c1 cc1 =>
      cases cs2 with
      | nil => cases h2
      | cons c2 cc2 =>
        obtain ⟨hc1, ht1⟩ := List.forall₂_cons.mp h1
        obtain ⟨hc2, ht2⟩ := List.forall₂_cons.mp h2
        simp only [flatIndex] at heq
        have hm1 : (c1 + s * flatIndex ss cc1) % s = c1 := by
          rw [Nat.add_mul_mod_self_left, Nat.mod_eq_of_lt hc1]
        have hm2 : (c2 + s * flatIndex ss cc2) % s = c2 := by
          rw [Nat.add_mul_mod_self_left, Nat.mod_eq_of_lt hc2]
        have hc : c1 = c2 := by rw [← hm1, heq, hm2]
        have hs : 0 < s := by omega
        have hmul : s * flatIndex ss cc1 = s * flatIndex ss cc2 := by omega
        have hf : flatIndex ss cc1 = flatIndex ss cc2 :=
          Nat.eq_of_mul_eq_mul_left hs hmul
        rw [hc, ih cc1 cc2 ht1 ht2 hf]

theorem sourceCoords_valid {sizes : List Nat} {res : List (Nat × Int × Nat)}
    (hsr : List.Forall₂ (fun s x => ∃ r, resolveRange s r = some x) sizes res) :
    ∀ {ks : List Nat},
      List.Forall₂ (fun k n => k < n) ks (res.map (fun x => x.2.2)) →
      validCoords sizes (sourceCoords res ks) := by
  induction hsr with
  | nil =>
    intro ks hks
    cases hks
    exact List.Forall₂.nil
  | @cons s x ss xs hx _ ih =>
    intro ks hks
    cases ks with
    | nil => cases hks
    | cons k kk =>
      obtain ⟨hk, hkk⟩ := List.forall₂_cons.mp hks
      obtain ⟨r, hr⟩ := hx
      obtain ⟨_, _, _, hbound⟩ := resolveRange_spec hr
      have hk2 : k < x.2.2 := hk
      have hb := hbound k hk2
      refine List.Forall₂.cons ?_ (ih hkk)
      show (((x.1 : Int) + (k : Int) * x.2.1).toNat) < s
      exact (Int.toNat_lt hb.1).mpr hb.2

theorem sourceCoords_nonneg {sizes : List Nat} {res : List (Nat × Int × Nat)}
    (hsr : List.Forall₂ (fun s x => ∃ r, resolveRange s r = some x) sizes res) :
    ∀ {ks : List Nat},
      List.Forall₂ (fun k n => k < n) ks (res.map (fun x => x.2.2)) →
      List.Forall₂
        (fun (x : Nat × Int × Nat) (k : Nat) => 0 ≤ (x.1 : Int) + (k : Int) * x.2.1)
        res ks := by
  induction hsr with
  | nil =>
    intro ks hks
    cases hks
    exact List.Forall₂.nil
  | @cons s x ss xs hx _ ih =>
    intro ks hks
    cases ks with
    | nil => cases hks
    | cons k kk =>
      obtain ⟨hk, hkk⟩ := List.forall₂_cons.mp hks
      obtain ⟨r, hr⟩ := hx
      obtain ⟨_, _, _, hbound⟩ := resolveRange_spec hr
      have hk2 : k < x.2.2 := hk
      have hb := hbound k hk2
      exact List.Forall₂.cons hb.1 (ih hkk)

theorem address_view_eq {res : List (Nat × Int × Nat)} {ks : List Nat}
    (h : List.Forall₂
      (fun (x : Nat × Int × Nat) (k : Nat) => 0 ≤ (x.1 : Int) + (k : Int) * x.2.1) res ks) :
    ∀ (strides : List Int) (origin : Int),
      address (List.zipWith (fun (st : Int) (x : Nat × Int × Nat) => st * x.2.1) strides res)
        (origin + (List.zipWith (fun (st : Int) (x : Nat × Int × Nat) => st * (x.1 : Int))
          strides res).sum) ks =
      address strides origin (sourceCoords res ks) := by
  induction h with
  | nil =>
    intro strides origin
    simp [address, sourceCoords]
  | @cons x k xs kk hxk _ ih =>
    intro strides origin
    cases strides with
    | nil => simp [address, sourceCoords]
    | cons st sts =>
      have hsum := ih sts 0
      simp only [address, zero_add, sourceCoords] at hsum ⊢
      simp only [List.zipWith_cons_cons, List.sum_cons]
      have hcast : (((((x.1 : Int) + (k : Int) * x.2.1).toNat : Nat)) : Int) =
          (x.1 : Int) + (k : Int) * x.2.1 := Int.toNat_of_nonneg hxk
      rw [hcast]
      linear_combination hsum

/-- C1: for a freshly created image `a` (default strides, origin 0) over a
shared buffer, and any spatial slice `v = a.At(ranges)`, filling a value
through `v` changes exactly the buffer pixels covered by the slice: reading
`a` at the source coordinates corresponding to any view coordinate yields
the written value, and every pixel of `a` outside the sliced region keeps
its previous value.  The fill rewrites the shared buffer in place: no copy
is made. -/
theorem C1_view_aliasing {α : Type} (sizes : List Nat) (rs : List DipRange)
    (res : List (Nat × Int × Nat)) (v : StridedImage) (buf : Int → α) (value : α)
    (hres : resolveAll sizes rs = some res)
    (hv : atView ⟨sizes, defaultStrides sizes, 0⟩ rs = some v) :
    (∀ ks, validCoords v.sizes ks →
      validCoords sizes (sourceCoords res ks) ∧
      fillView v value buf
        (address (defaultStrides sizes) 0 (sourceCoords res ks)) = value) ∧
    (∀ cs, validCoords sizes cs → ¬coveredCoord res cs →
      fillView v value buf (address (defaultStrides sizes) 0 cs) =
        buf (address (defaultStrides sizes) 0 cs)) := by
  have hsr := resolveAll_forall₂ hres
  unfold atView at hv
  rw [hres] at hv
  injection hv with hv
  subst hv
  constructor
  · intro ks hks
    have hks2 : List.Forall₂ (fun k n => k < n) ks (res.map (fun x => x.2.2)) := hks
    have hval := sourceCoords_valid hsr hks2
    refine ⟨hval, ?_⟩
    have hnn := sourceCoords_nonneg hsr hks2
    have haddr := address_view_eq hnn (defaultStrides sizes) 0
    have hmem : address (defaultStrides sizes) 0 (sourceCoords res ks) ∈
        coveredAddresses
          { sizes := res.map (fun x => x.2.2),
            strides := List.zipWith (fun (st : Int) (x : Nat × Int × Nat) => st * x.2.1)
              (defaultStrides sizes) res,
            origin := 0 + (List.zipWith
              (fun (st : Int) (x : Nat × Int × Nat) => st * (x.1 : Int))
              (defaultStrides sizes) res).sum } := by
      unfold coveredAddresses
      exact List.mem_map.mpr ⟨ks, (mem_allCoords _ _).mpr hks2, haddr⟩
    simp only [fillView]
    rw [if_pos hmem]
  · intro cs hcs hncov
    have hnotmem : address (defaultStrides sizes) 0 cs ∉
        coveredAddresses
          { sizes := res.map (fun x => x.2.2),
            strides := List.zipWith (fun (st : Int) (x : Nat × Int × Nat) => st * x.2.1)
              (defaultStrides sizes) res,
            origin := 0 + (List.zipWith
              (fun (st : Int) (x : Nat × Int × Nat) => st * (x.1 : Int))
              (defaultStrides sizes) res).sum } := by
      intro hmem
      unfold coveredAddresses at hmem
      obtain ⟨ks, hksmem, haddr⟩ := List.mem_map.mp hmem
      have hks : List.Forall₂ (fun k n => k < n) ks (res.map (fun x => x.2.2)) :=
        (mem_allCoords _ _).mp hksmem
      have hnn := sourceCoords_nonneg hsr hks
      have hview := address_view_eq hnn (defaultStrides sizes) 0
      have heq : address (defaultStrides sizes) 0 (sourceCoords res ks) =
          address (defaultStrides sizes) 0 cs := by rw [← hview]; exact haddr
      have h1 := zipWith_defaultStrides_sum sizes (sourceCoords res ks)
      have h2 := zipWith_defaultStrides_sum sizes cs
      unfold address at heq
      have hflatN : flatIndex sizes (sourceCoords res ks) = flatIndex sizes cs := by
        omega
      have hvalid1 := sourceCoords_valid hsr hks
      have hsc : sourceCoords res ks = cs := flatIndex_inj sizes _ _ hvalid1 hcs hflatN
      exact hncov (List.mem_map.mpr ⟨ks, hksmem, hsc⟩)
    simp only [fillView]
    rw [if_neg hnotmem]

/-- Resolved ranges of the concrete slice of the test scenario (a 10x20
image, ranges 0..4 and 4..-1 with step 1, stops inclusive). -/
def c1Res : List (Nat × Int × Nat) := [(0, 1, 5), (4, 1, 16)]

/-- The concrete view produced by that slice: sizes 5x16, strides [1, 10],
origin 40. -/
def c1View : StridedImage := ⟨[5, 16], [1, 10], 40⟩

/-- Witness for C1: on the 10x20 image filled with 3, filling the slice
with 55 makes the in-slice pixel (view coordinate [2, 5], source pixel
[2, 9]) read 55 through the original image, while the outside pixel [9, 0]
still reads 3. -/
theorem C1_view_aliasing_witness :
    (validCoords [10, 20] (sourceCoords c1Res [2, 5]) ∧
      fillView c1View 55 (fun _ => (3 : Int))
        (address (defaultStrides [10, 20]) 0 (sourceCoords c1Res [2, 5])) = 55) ∧
    fillView c1View 55 (fun _ => (3 : Int))
      (address (defaultStrides [10, 20]) 0 [9, 0]) = 3 :=
  ⟨(C1_view_aliasing [10, 20] [⟨0, 4, 1⟩, ⟨4, -1, 1⟩] c1Res c1View
      (fun _ => (3 : Int)) 55 (by decide) (by decide)).1 [2, 5] (by decide),
   (C1_view_aliasing [10, 20] [⟨0, 4, 1⟩, ⟨4, -1, 1⟩] c1Res c1View
      (fun _ => (3 : Int)) 55 (by decide) (by decide)).2 [9, 0] (by decide) (by decide)⟩

end DIPlib
